import Mathlib

/-!
Shallow embedding of the retrieval-augmented answering core of the
`backend-ai-native-book` repository, together with proofs of the behavioural
properties stated in its specification.

Modelling conventions:
* Python strings are lists of characters (`Str`); `len`, slicing, `strip()`,
  `split()` and f-string concatenation are modelled by the list operations
  defined below.
* Python floats (similarity scores, embedding coordinates) are modelled as
  rationals; no property proved here depends on floating-point rounding.
* The external collaborators (Cohere embedding/chat client, Qdrant search)
  are modelled as a record of possibly-failing functions (`Services`);
  a raised exception is an `Except.error`.
* Wall-clock fields (`latency_ms`) and configuration echoes (`model_used`)
  are omitted from result records.
-/

/-- Python strings, modelled as lists of characters. -/
abbrev Str := List Char

/-- Embed a Lean string literal into the model type. -/
def str (s : String) : Str := s.data

/-- Whitespace characters recognised by Python `str.strip()` / `str.split()`
(the ASCII ones; no other whitespace occurs in this development). -/
def isPySpace (c : Char) : Bool :=
  c == ' ' || c == '\t' || c == '\n' || c == '\r' || c == '\x0b' || c == '\x0c'

/-- Python `s.lstrip()`. -/
def lstrip (s : Str) : Str := s.dropWhile isPySpace

/-- Python `s.rstrip()`. -/
def rstrip (s : Str) : Str := (s.reverse.dropWhile isPySpace).reverse

/-- Python `s.strip()`. -/
def strip (s : Str) : Str := rstrip (lstrip s)

/-- The first character, if any, is not whitespace. -/
def NoSpaceHead : Str → Prop
  | [] => True
  | c :: _ => isPySpace c = false

instance : ∀ s : Str, Decidable (NoSpaceHead s)
  | [] => isTrue trivial
  | c :: _ => inferInstanceAs (Decidable (isPySpace c = false))

/-- A string with no leading and no trailing whitespace. -/
def Clean (s : Str) : Prop := NoSpaceHead s ∧ NoSpaceHead s.reverse

theorem clean_nil : Clean [] := ⟨trivial, trivial⟩

theorem noSpaceHead_dropWhile (s : Str) : NoSpaceHead (s.dropWhile isPySpace) := by
  induction s with
  | nil => trivial
  | cons c s ih =>
    rw [List.dropWhile_cons]
    by_cases h : isPySpace c = true
    · simpa [h] using ih
    · simp only [h, if_false]
      exact eq_false_of_ne_true h

theorem dropWhile_eq_self_of_noSpaceHead {s : Str} (h : NoSpaceHead s) :
    s.dropWhile isPySpace = s := by
  cases s with
  | nil => rfl
  | cons c s => rw [List.dropWhile_cons, h]; simp

theorem dropWhile_isSuffix (p : Char → Bool) (l : Str) : l.dropWhile p <:+ l := by
  induction l with
  | nil => exact List.suffix_refl _
  | cons a l ih =>
    rw [List.dropWhile_cons]
    by_cases h : p a = true
    · simpa [h] using ih.trans (List.suffix_cons a l)
    · simp [h]

theorem noSpaceHead_of_front {s t : Str} (h : ∃ u, s ++ u = t) (ht : NoSpaceHead t) :
    NoSpaceHead s := by
  obtain ⟨u, rfl⟩ := h
  cases s with
  | nil => trivial
  | cons c s => exact ht

theorem rstrip_front (s : Str) : ∃ u, rstrip s ++ u = s := by
  have hsuf : s.reverse.dropWhile isPySpace <:+ s.reverse := dropWhile_isSuffix _ _
  obtain ⟨u, hu⟩ := hsuf
  refine ⟨u.reverse, ?_⟩
  have := congrArg List.reverse hu
  simpa [rstrip] using this

theorem lstrip_eq_self {s : Str} (h : NoSpaceHead s) : lstrip s = s :=
  dropWhile_eq_self_of_noSpaceHead h

theorem rstrip_eq_self {s : Str} (h : NoSpaceHead s.reverse) : rstrip s = s := by
  unfold rstrip
  rw [dropWhile_eq_self_of_noSpaceHead h, List.reverse_reverse]

theorem strip_eq_self {s : Str} (h : Clean s) : strip s = s := by
  unfold strip
  rw [lstrip_eq_self h.1, rstrip_eq_self h.2]

theorem noSpaceHead_lstrip (s : Str) : NoSpaceHead (lstrip s) :=
  noSpaceHead_dropWhile s

theorem noSpaceHead_rstrip {s : Str} (h : NoSpaceHead s) : NoSpaceHead (rstrip s) :=
  noSpaceHead_of_front (rstrip_front s) h

theorem clean_strip (s : Str) : Clean (strip s) := by
  refine ⟨noSpaceHead_rstrip (noSpaceHead_lstrip s), ?_⟩
  show NoSpaceHead (rstrip (lstrip s)).reverse
  unfold rstrip
  rw [List.reverse_reverse]
  exact noSpaceHead_dropWhile _

theorem strip_nil : strip ([] : Str) = [] := rfl

theorem ne_nil_of_strip_ne_nil {s : Str} (h : strip s ≠ []) : s ≠ [] := by
  intro hs; exact h (hs ▸ strip_nil)

theorem noSpaceHead_append {a b : Str} (ha : NoSpaceHead a) (hne : a ≠ []) :
    NoSpaceHead (a ++ b) := by
  cases a with
  | nil => exact absurd rfl hne
  | cons c s => exact ha

/-- Gluing two clean nonempty strings with an arbitrary middle yields a clean
string (the middle never touches the ends). -/
theorem clean_glue (m : Str) {a b : Str} (ha : Clean a) (hna : a ≠ []) (hb : Clean b)
    (hnb : b ≠ []) : Clean (a ++ (m ++ b)) := by
  constructor
  · exact noSpaceHead_append ha.1 hna
  · rw [List.reverse_append, List.reverse_append]
    refine noSpaceHead_append ?_ ?_
    · exact noSpaceHead_append hb.2 (by simpa using hnb)
    · simp [hnb]

theorem clean_of_all_no_space {w : Str} (h : ∀ c ∈ w, isPySpace c = false) : Clean w := by
  constructor
  · cases w with
    | nil => trivial
    | cons c s => exact h c (by simp)
  · cases hw : w.reverse with
    | nil => trivial
    | cons c s =>
      have : c ∈ w := by
        rw [← List.mem_reverse, hw]; simp
      exact h c this

/-- Worker for Python `s.split()`: accumulates the current word (reversed)
and breaks on whitespace runs, emitting no empty words. -/
def pySplitAux : Str → Str → List Str
  | [], acc => if acc = [] then [] else [acc.reverse]
  | c :: rest, acc =>
    if isPySpace c then
      if acc = [] then pySplitAux rest [] else acc.reverse :: pySplitAux rest []
    else
      pySplitAux rest (c :: acc)

/-- Python `s.split()` (no separator argument). -/
def pySplit (s : Str) : List Str := pySplitAux s []

theorem pySplitAux_words : ∀ (s acc : Str), (∀ c ∈ acc, isPySpace c = false) →
    ∀ w ∈ pySplitAux s acc, w ≠ [] ∧ ∀ c ∈ w, isPySpace c = false := by
  intro s
  induction s with
  | nil =>
    intro acc hacc w hw
    by_cases h : acc = []
    · simp [pySplitAux, h] at hw
    · simp only [pySplitAux, h, if_false, List.mem_singleton] at hw
      subst hw
      exact ⟨by simpa using h, fun c hc => hacc c (List.mem_reverse.mp hc)⟩
  | cons c rest ih =>
    intro acc hacc w hw
    by_cases hc : isPySpace c = true
    · by_cases h : acc = []
      · simp only [pySplitAux, hc, if_true, h, if_true] at hw
        exact ih [] (by simp) w hw
      · simp only [pySplitAux, hc, if_true, h, if_false, List.mem_cons] at hw
        rcases hw with hw | hw
        · subst hw
          exact ⟨by simpa using h, fun d hd => hacc d (List.mem_reverse.mp hd)⟩
        · exact ih [] (by simp) w hw
    · have hc' : isPySpace c = false := eq_false_of_ne_true hc
      simp only [pySplitAux, hc', if_false] at hw
      refine ih (c :: acc) ?_ w hw
      intro d hd
      rcases List.mem_cons.mp hd with h | h
      · subst h; exact hc'
      · exact hacc d h

theorem pySplitAux_ne_nil : ∀ (s acc : Str), acc ≠ [] → pySplitAux s acc ≠ [] := by
  intro s
  induction s with
  | nil => intro acc h; simp [pySplitAux, h]
  | cons c rest ih =>
    intro acc h
    by_cases hc : isPySpace c = true
    · simp [pySplitAux, hc, h]
    · have hc' : isPySpace c = false := eq_false_of_ne_true hc
      simp only [pySplitAux, hc', if_false]
      exact ih (c :: acc) (by simp)

theorem pySplit_words {s : Str} : ∀ w ∈ pySplit s, w ≠ [] ∧ ∀ c ∈ w, isPySpace c = false :=
  pySplitAux_words s [] (by simp)

theorem pySplit_ne_nil {s : Str} (hne : s ≠ []) (h : NoSpaceHead s) : pySplit s ≠ [] := by
  cases s with
  | nil => exact absurd rfl hne
  | cons c rest =>
    unfold pySplit pySplitAux
    rw [h]
    simp only [if_false]
    exact pySplitAux_ne_nil rest [c] (by simp)

/-- Python `" ".join(ws)`. -/
def joinSpace : List Str → Str
  | [] => []
  | [w] => w
  | w :: ws => w ++ ' ' :: joinSpace ws

theorem joinSpace_clean : ∀ (ws : List Str),
    (∀ w ∈ ws, w ≠ [] ∧ ∀ c ∈ w, isPySpace c = false) → ws ≠ [] →
    Clean (joinSpace ws) ∧ joinSpace ws ≠ [] := by
  intro ws
  induction ws with
  | nil => intro _ h; exact absurd rfl h
  | cons w ws ih =>
    intro hws _
    have hw := hws w (by simp)
    cases ws with
    | nil =>
      exact ⟨clean_of_all_no_space hw.2, hw.1⟩
    | cons w' ws' =>
      have hrest := ih (fun v hv => hws v (List.mem_cons_of_mem w hv)) (by simp)
      show Clean (w ++ ' ' :: joinSpace (w' :: ws')) ∧ w ++ ' ' :: joinSpace (w' :: ws') ≠ []
      have hglue : Clean (w ++ ([' '] ++ joinSpace (w' :: ws'))) :=
        clean_glue [' '] (clean_of_all_no_space hw.2) hw.1 hrest.1 hrest.2
      constructor
      · simpa using hglue
      · simp [hw.1]

/-- Python `ws[-k:]` for `k > 0`: the trailing `k` elements. -/
def takeLast (k : Nat) (ws : List Str) : List Str := ws.drop (ws.length - k)

theorem mem_takeLast {k : Nat} {ws : List Str} {w : Str} (h : w ∈ takeLast k ws) :
    w ∈ ws := List.mem_of_mem_drop h

theorem takeLast_ne_nil {k : Nat} {ws : List Str} (hk : 0 < k) (h : ws ≠ []) :
    takeLast k ws ≠ [] := by
  have hlen : 0 < ws.length := List.length_pos.mpr h
  have : 0 < (takeLast k ws).length := by
    simp only [takeLast, List.length_drop]
    omega
  exact List.ne_nil_of_length_pos this

/-- Worker for `re.split(r'\n\n+', text)`: scans the text keeping the piece
built so far (reversed in `acc`) and the length of the pending newline run.
A run of two or more newlines is a separator (the pattern is greedy, so the
whole run is consumed); a single newline stays inside the piece; a trailing
separator emits a trailing empty piece, as `re.split` does. -/
def splitParasGo : Str → Str → Nat → List Str
  | [], acc, pending =>
    if 2 ≤ pending then [acc.reverse, []] else
    if pending = 1 then [('\n' :: acc).reverse] else [acc.reverse]
  | c :: rest, acc, pending =>
    if c == '\n' then splitParasGo rest acc (pending + 1)
    else if 2 ≤ pending then acc.reverse :: splitParasGo rest [c] 0
    else if pending = 1 then splitParasGo rest (c :: '\n' :: acc) 0
    else splitParasGo rest (c :: acc) 0

/-- Model of `ChunkingService._split_into_paragraphs`: `re.split(r'\n\n+', text)`,
then keep `p.strip()` for every piece whose stripped form is nonempty. -/
def split_into_paragraphs (text : Str) : List Str :=
  ((splitParasGo text [] 0).map strip).filter (fun p => !p.isEmpty)

theorem paras_clean {text : Str} : ∀ p ∈ split_into_paragraphs text, Clean p ∧ p ≠ [] := by
  intro p hp
  unfold split_into_paragraphs at hp
  have h := List.mem_filter.mp hp
  obtain ⟨q, _, hq⟩ := List.mem_map.mp h.1
  refine ⟨hq ▸ clean_strip q, ?_⟩
  have := h.2
  simpa [List.isEmpty_iff] using this

/-- The `Chunk` dataclass of `app/services/chunking.py`. The `embedding`
field is attached later by the ingestion pipeline. -/
structure Chunk where
  text : Str
  source_file : Str
  chapter : Option Str
  «section» : Option Str
  position : Nat
  token_count : Nat
  embedding : Option (List Rat) := none
deriving DecidableEq, Repr

/-- The `ChunkingService` configuration (`chunk_size`, `chunk_overlap` are
non-negative integers loaded from settings). -/
structure ChunkingService where
  chunk_size : Nat
  chunk_overlap : Nat
deriving DecidableEq, Repr

/-- Match of `^#\s+(.+)$` against one line (no newline inside), returning the
stripped first group: a `#` followed by at least one whitespace character and
a nonempty remainder. A lone `##` header does not match (its second character
is not whitespace). -/
def lineChapter : Str → Option Str
  | '#' :: c :: rest => if isPySpace c then some (strip ((c :: rest).dropWhile isPySpace)) else none
  | _ => none

/-- Match of `^##\s+(.+)$` against one line, returning the stripped group. -/
def lineSection : Str → Option Str
  | '#' :: '#' :: c :: rest => if isPySpace c then some (strip ((c :: rest).dropWhile isPySpace)) else none
  | _ => none

/-- Model of `ChunkingService._extract_chapter`: first MULTILINE match of `^#\s+(.+)$`,
group stripped. Modelled line by line; the exotic corner in which `\s+` of the
pattern itself spans a newline (a `#` alone at the end of a line) is not
modelled, and no property below inspects this field. -/
def extract_chapter (text : Str) : Option Str :=
  (text.splitOn '\n').findSome? lineChapter

/-- Model of `ChunkingService._extract_section`: first MULTILINE match of `^##\s+(.+)$`,
group stripped (same modelling note as `extract_chapter`). -/
def extract_section (text : Str) : Option Str :=
  (text.splitOn '\n').findSome? lineSection

/-- Model of `ChunkingService._get_overlap_text`: the last `chunk_overlap` words of the
chunk, rejoined with single spaces. -/
def ChunkingService.get_overlap_text (svc : ChunkingService) (text : Str) : Str :=
  let words := pySplit text
  let overlap_words := if 0 < svc.chunk_overlap then takeLast svc.chunk_overlap words else []
  joinSpace overlap_words

/-- Model of `ChunkingService._estimate_tokens`: `len(text) // 4`. -/
def ChunkingService.estimate_tokens (text : Str) : Nat := text.length / 4

/-- State of the accumulation loop in `ChunkingService.chunk_text`. -/
structure ChunkState where
  chunks : List Chunk
  current_chunk : Str
  current_position : Nat
deriving Repr

/-- The `Chunk(...)` construction that appears (identically) at the two save
sites of `chunk_text`: text is stripped, while chapter/section/token count are
computed from the unstripped buffer. -/
def closeChunk (source_file cur : Str) (pos : Nat) : Chunk :=
  { text := strip cur
    source_file := source_file
    chapter := extract_chapter cur
    «section» := extract_section cur
    position := pos
    token_count := ChunkingService.estimate_tokens cur }

/-- One iteration of the paragraph loop in `ChunkingService.chunk_text`. -/
def chunkStep (svc : ChunkingService) (source_file : Str) (st : ChunkState)
    (paragraph : Str) : ChunkState :=
  if svc.chunk_size < st.current_chunk.length + paragraph.length then
    let st' :=
      if st.current_chunk ≠ [] then
        { chunks := st.chunks ++ [closeChunk source_file st.current_chunk st.current_position]
          current_chunk := st.current_chunk
          current_position := st.current_position + 1 }
      else st
    if 0 < svc.chunk_overlap ∧ 0 < st'.chunks.length then
      { st' with current_chunk :=
          svc.get_overlap_text st.current_chunk ++ ('\n' :: '\n' :: paragraph) }
    else
      { st' with current_chunk := paragraph }
  else
    { st with current_chunk :=
        if st.current_chunk ≠ [] then st.current_chunk ++ ('\n' :: '\n' :: paragraph)
        else paragraph }

/-- Model of `ChunkingService.chunk_text`: split into paragraphs, accumulate into
size-bounded buffers, close the trailing nonempty buffer. -/
def ChunkingService.chunk_text (svc : ChunkingService) (text source_file : Str) :
    List Chunk :=
  let paragraphs := split_into_paragraphs text
  let final := paragraphs.foldl (chunkStep svc source_file) ⟨[], [], 0⟩
  if strip final.current_chunk ≠ [] then
    final.chunks ++ [closeChunk source_file final.current_chunk final.current_position]
  else
    final.chunks

/-- Sequential renumbering of chunk positions, as done by the global
`position` counter of `BookIngestionOrchestrator._process_files`. -/
def renumber (pos : Nat) : List Chunk → List Chunk
  | [] => []
  | c :: cs => { c with position := pos } :: renumber (pos + 1) cs

/-- Pure model of `BookIngestionOrchestrator._process_files`: chunk every
(file name, file text) pair in order and reassign positions from a global
counter. File-read failures (skipped files) are not modelled. -/
def process_files (svc : ChunkingService) (files : List (Str × Str)) : List Chunk :=
  renumber 0 (files.flatMap fun f => svc.chunk_text f.2 f.1)

/-- Invariant of the `chunk_text` accumulation loop: the buffer never carries
surrounding whitespace, an empty buffer means nothing was saved yet, the
position counter equals the number of saved chunks, saved positions are
`0, 1, 2, ...`, and every saved token count is `len(text) // 4` of the saved
(stripped) text. -/
structure StInv (st : ChunkState) : Prop where
  clean : Clean st.current_chunk
  empty_imp : st.current_chunk = [] → st.chunks = []
  pos_eq : st.current_position = st.chunks.length
  positions : st.chunks.map (fun c => c.position) = List.range st.chunks.length
  tokens : ∀ c ∈ st.chunks, c.token_count = c.text.length / 4

theorem stInv_init : StInv ⟨[], [], 0⟩ :=
  ⟨clean_nil, fun _ => rfl, rfl, rfl, fun c hc => absurd hc (List.not_mem_nil c)⟩

theorem get_overlap_clean {svc : ChunkingService} {cur : Str} (h : Clean cur)
    (hne : cur ≠ []) (hov : 0 < svc.chunk_overlap) :
    Clean (svc.get_overlap_text cur) ∧ svc.get_overlap_text cur ≠ [] := by
  unfold ChunkingService.get_overlap_text
  simp only [hov, if_true]
  refine joinSpace_clean _ ?_ ?_
  · intro w hw
    exact pySplit_words w (mem_takeLast hw)
  · exact takeLast_ne_nil hov (pySplit_ne_nil hne h.1)

theorem closeChunk_text (sf cur : Str) (pos : Nat) :
    (closeChunk sf cur pos).text = strip cur := rfl

theorem closeChunk_token_ok {cur : Str} (h : Clean cur) (sf : Str) (pos : Nat) :
    (closeChunk sf cur pos).token_count = (closeChunk sf cur pos).text.length / 4 := by
  simp [closeChunk, ChunkingService.estimate_tokens, strip_eq_self h]

theorem chunkStep_inv {svc : ChunkingService} {sf : Str} {st : ChunkState} {p : Str}
    (hst : StInv st) (hcp : Clean p) (hnp : p ≠ []) :
    StInv (chunkStep svc sf st p) := by
  obtain ⟨chunks, cur, pos⟩ := st
  obtain ⟨hclean, hemp, hpos, hposs, htok⟩ := hst
  simp only at hclean hemp hpos hposs htok
  unfold chunkStep
  simp only
  by_cases hov : svc.chunk_size < cur.length + p.length
  · rw [if_pos hov]
    by_cases hcur : cur = []
    · subst hcur
      have hch : chunks = [] := hemp rfl
      subst hch
      have hne : ¬(([] : Str) ≠ []) := fun h => h rfl
      rw [if_neg hne]
      have hcond : ¬(0 < svc.chunk_overlap ∧ 0 < ([] : List Chunk).length) := by simp
      rw [if_neg hcond]
      exact ⟨hcp, fun _ => rfl, hpos, hposs, htok⟩
    · rw [if_pos hcur]
      set cc := closeChunk sf cur pos with hcc
      have hpos' : pos + 1 = (chunks ++ [cc]).length := by simp [hpos]
      have hposs' : (chunks ++ [cc]).map (fun c => c.position) =
          List.range (chunks ++ [cc]).length := by
        have hccpos : cc.position = chunks.length := by
          rw [hcc]; simpa [closeChunk] using hpos
        simp [List.map_append, hposs, hccpos, List.range_succ]
      have htok' : ∀ c ∈ chunks ++ [cc], c.token_count = c.text.length / 4 := by
        intro c hc
        rcases List.mem_append.mp hc with h | h
        · exact htok c h
        · have : c = cc := by simpa using h
          subst this
          exact closeChunk_token_ok hclean sf pos
      by_cases hov2 : 0 < svc.chunk_overlap
      · have hcond : 0 < svc.chunk_overlap ∧ 0 < (chunks ++ [cc]).length := ⟨hov2, by simp⟩
        rw [if_pos hcond]
        obtain ⟨hoc, hon⟩ := get_overlap_clean hclean hcur hov2
        refine ⟨?_, ?_, hpos', hposs', htok'⟩
        · exact clean_glue ['\n', '\n'] hoc hon hcp hnp
        · intro h
          exact absurd h (by simp)
      · have hcond : ¬(0 < svc.chunk_overlap ∧ 0 < (chunks ++ [cc]).length) := by
          simp [hov2]
        rw [if_neg hcond]
        refine ⟨hcp, ?_, hpos', hposs', htok'⟩
        intro h
        exact absurd h hnp
  · rw [if_neg hov]
    by_cases hcur : cur = []
    · subst hcur
      have hne : ¬(([] : Str) ≠ []) := fun h => h rfl
      rw [if_neg hne]
      exact ⟨hcp, fun h => absurd h hnp, hpos, hposs, htok⟩
    · rw [if_pos hcur]
      refine ⟨?_, ?_, hpos, hposs, htok⟩
      · exact clean_glue ['\n', '\n'] hclean hcur hcp hnp
      · intro h
        rcases List.append_eq_nil.mp h with ⟨_, h2⟩
        exact absurd h2 (by simp)

theorem foldl_inv {svc : ChunkingService} {sf : Str} :
    ∀ (ps : List Str) (st : ChunkState), (∀ p ∈ ps, Clean p ∧ p ≠ []) → StInv st →
    StInv (ps.foldl (chunkStep svc sf) st) := by
  intro ps
  induction ps with
  | nil => intro st _ h; exact h
  | cons p ps ih =>
    intro st hps hst
    rw [List.foldl_cons]
    have hp := hps p (by simp)
    exact ih _ (fun q hq => hps q (List.mem_cons_of_mem p hq)) (chunkStep_inv hst hp.1 hp.2)

theorem chunk_text_tokens {svc : ChunkingService} {text sf : Str} :
    ∀ c ∈ svc.chunk_text text sf, c.token_count = c.text.length / 4 := by
  intro c hc
  unfold ChunkingService.chunk_text at hc
  have hinv : StInv ((split_into_paragraphs text).foldl (chunkStep svc sf) ⟨[], [], 0⟩) :=
    foldl_inv _ _ paras_clean stInv_init
  set final := (split_into_paragraphs text).foldl (chunkStep svc sf) ⟨[], [], 0⟩ with hfinal
  by_cases hfc : strip final.current_chunk ≠ []
  · rw [if_pos hfc] at hc
    rcases List.mem_append.mp hc with h | h
    · exact hinv.tokens c h
    · have : c = closeChunk sf final.current_chunk final.current_position := by simpa using h
      subst this
      exact closeChunk_token_ok hinv.clean sf final.current_position
  · rw [if_neg hfc] at hc
    exact hinv.tokens c hc

theorem chunk_text_positions (svc : ChunkingService) (text sf : Str) :
    (svc.chunk_text text sf).map (fun c => c.position) =
      List.range (svc.chunk_text text sf).length := by
  unfold ChunkingService.chunk_text
  have hinv : StInv ((split_into_paragraphs text).foldl (chunkStep svc sf) ⟨[], [], 0⟩) :=
    foldl_inv _ _ paras_clean stInv_init
  set final := (split_into_paragraphs text).foldl (chunkStep svc sf) ⟨[], [], 0⟩ with hfinal
  by_cases hfc : strip final.current_chunk ≠ []
  · rw [if_pos hfc]
    have hccpos : (closeChunk sf final.current_chunk final.current_position).position =
        final.chunks.length := by
      simpa [closeChunk] using hinv.pos_eq
    simp [List.map_append, hinv.positions, hccpos, List.range_succ]
  · rw [if_neg hfc]
    exact hinv.positions

/-- Size bound maintained by `chunk_text` when `chunk_overlap = 0`: the buffer
is empty, a single input paragraph, or at most two characters (one unchecked
`"\n\n"` joiner) past `chunk_size`; saved chunks satisfy the same bound or are
single oversized paragraphs. -/
def SizeBound (svc : ChunkingService) (paras : List Str) (st : ChunkState) : Prop :=
  (st.current_chunk = [] ∨ st.current_chunk ∈ paras ∨
      st.current_chunk.length ≤ svc.chunk_size + 2) ∧
  ∀ c ∈ st.chunks, c.text.length ≤ svc.chunk_size + 2 ∨
      (c.text ∈ paras ∧ svc.chunk_size < c.text.length)

theorem closed_chunk_bound {svc : ChunkingService} {paras : List Str} {cur : Str}
    (hcase : cur ∈ paras ∨ cur.length ≤ svc.chunk_size + 2) :
    cur.length ≤ svc.chunk_size + 2 ∨ (cur ∈ paras ∧ svc.chunk_size < cur.length) := by
  by_cases hle : cur.length ≤ svc.chunk_size + 2
  · exact Or.inl hle
  · rcases hcase with h | h
    · exact Or.inr ⟨h, by omega⟩
    · exact Or.inl h

theorem chunkStep_size {svc : ChunkingService} {sf : Str} {paras : List Str}
    {st : ChunkState} {p : Str} (hov0 : svc.chunk_overlap = 0) (hst : StInv st)
    (hsz : SizeBound svc paras st) (hp : p ∈ paras) :
    SizeBound svc paras (chunkStep svc sf st p) := by
  obtain ⟨chunks, cur, pos⟩ := st
  obtain ⟨hclean, hemp, _, _, _⟩ := hst
  obtain ⟨hcur_b, hchunks_b⟩ := hsz
  simp only at hclean hemp hcur_b hchunks_b
  unfold chunkStep
  simp only
  by_cases hov : svc.chunk_size < cur.length + p.length
  · rw [if_pos hov]
    by_cases hcur : cur = []
    · subst hcur
      have hch : chunks = [] := hemp rfl
      subst hch
      have hne : ¬(([] : Str) ≠ []) := fun h => h rfl
      rw [if_neg hne]
      have hcond : ¬(0 < svc.chunk_overlap ∧ 0 < ([] : List Chunk).length) := by simp
      rw [if_neg hcond]
      exact ⟨Or.inr (Or.inl hp), hchunks_b⟩
    · rw [if_pos hcur]
      have hcond : ¬(0 < svc.chunk_overlap ∧
          0 < (chunks ++ [closeChunk sf cur pos]).length) := by
        simp [hov0]
      rw [if_neg hcond]
      refine ⟨Or.inr (Or.inl hp), ?_⟩
      intro c hc
      rcases List.mem_append.mp hc with h | h
      · exact hchunks_b c h
      · have : c = closeChunk sf cur pos := by simpa using h
        subst this
        rw [closeChunk_text, strip_eq_self hclean]
        rcases hcur_b with h | h
        · exact absurd h hcur
        · exact closed_chunk_bound h
  · rw [if_neg hov]
    by_cases hcur : cur = []
    · subst hcur
      have hne : ¬(([] : Str) ≠ []) := fun h => h rfl
      rw [if_neg hne]
      exact ⟨Or.inr (Or.inl hp), hchunks_b⟩
    · rw [if_pos hcur]
      refine ⟨Or.inr (Or.inr ?_), hchunks_b⟩
      push_cast
      simp only [List.length_append, List.length_cons]
      omega

theorem foldl_size {svc : ChunkingService} {sf : Str} {paras : List Str}
    (hov0 : svc.chunk_overlap = 0) :
    ∀ (ps : List Str) (st : ChunkState), ps ⊆ paras → (∀ p ∈ ps, Clean p ∧ p ≠ []) →
    StInv st → SizeBound svc paras st →
    SizeBound svc paras (ps.foldl (chunkStep svc sf) st) := by
  intro ps
  induction ps with
  | nil => intro st _ _ _ h; exact h
  | cons p ps ih =>
    intro st hsub hps hst hsz
    rw [List.foldl_cons]
    have hsub' := List.cons_subset.mp hsub
    have hp := hps p (by simp)
    exact ih _ hsub'.2 (fun q hq => hps q (List.mem_cons_of_mem p hq))
      (chunkStep_inv hst hp.1 hp.2) (chunkStep_size hov0 hst hsz hsub'.1)

theorem chunk_text_size {svc : ChunkingService} {text sf : Str}
    (hov0 : svc.chunk_overlap = 0) :
    ∀ c ∈ svc.chunk_text text sf, c.text.length ≤ svc.chunk_size + 2 ∨
      (c.text ∈ split_into_paragraphs text ∧ svc.chunk_size < c.text.length) := by
  intro c hc
  unfold ChunkingService.chunk_text at hc
  have hinv : StInv ((split_into_paragraphs text).foldl (chunkStep svc sf) ⟨[], [], 0⟩) :=
    foldl_inv _ _ paras_clean stInv_init
  have hsz : SizeBound svc (split_into_paragraphs text)
      ((split_into_paragraphs text).foldl (chunkStep svc sf) ⟨[], [], 0⟩) :=
    foldl_size hov0 _ _ (fun _ h => h) paras_clean stInv_init
      ⟨Or.inl rfl, fun c hc => absurd hc (List.not_mem_nil c)⟩
  set final := (split_into_paragraphs text).foldl (chunkStep svc sf) ⟨[], [], 0⟩ with hfinal
  by_cases hfc : strip final.current_chunk ≠ []
  · rw [if_pos hfc] at hc
    rcases List.mem_append.mp hc with h | h
    · exact hsz.2 c h
    · have : c = closeChunk sf final.current_chunk final.current_position := by simpa using h
      subst this
      rw [closeChunk_text, strip_eq_self hinv.clean]
      rcases hsz.1 with h | h
      · exact absurd (h ▸ strip_nil) hfc
      · exact closed_chunk_bound h
  · rw [if_neg hfc] at hc
    exact hsz.2 c hc

theorem renumber_positions : ∀ (l : List Chunk) (pos : Nat),
    (renumber pos l).map (fun c => c.position) = List.range' pos l.length := by
  intro l
  induction l with
  | nil => intro pos; rfl
  | cons c cs ih =>
    intro pos
    simp [renumber, ih, List.range']

theorem renumber_length : ∀ (l : List Chunk) (pos : Nat),
    (renumber pos l).length = l.length := by
  intro l
  induction l with
  | nil => intro pos; rfl
  | cons c cs ih => intro pos; simp [renumber, ih]

theorem process_files_positions (svc : ChunkingService) (files : List (Str × Str)) :
    (process_files svc files).map (fun c => c.position) =
      List.range (process_files svc files).length := by
  unfold process_files
  rw [renumber_positions, renumber_length, List.range_eq_range']

theorem pairwise_of_positions_range {l : List Chunk}
    (h : l.map (fun c => c.position) = List.range l.length) :
    l.Pairwise (fun a b => a.position < b.position) := by
  rw [List.pairwise_iff_get]
  intro i j hij
  have hi : (l.get i).position = i.1 := by
    have := congrArg (fun t => t[i.1]?) h
    simp only [List.getElem?_map] at this
    rw [List.getElem?_range i.2] at this
    simp only [List.getElem?_eq_getElem i.2, Option.map_some] at this
    exact Option.some.inj this
  have hj : (l.get j).position = j.1 := by
    have := congrArg (fun t => t[j.1]?) h
    simp only [List.getElem?_map] at this
    rw [List.getElem?_range j.2] at this
    simp only [List.getElem?_eq_getElem j.2, Option.map_some] at this
    exact Option.some.inj this
  rw [hi, hj]
  exact hij

/-- A chat message (`{"role": ..., "content": ...}`). -/
structure Message where
  role : Str
  content : Str
deriving DecidableEq, Repr

/-- One Qdrant search hit: similarity score plus payload fields. Payload
lookups (`payload.get(...)`) are modelled as total fields, per the gateway
payload contract (`chunk_id, text, source_id, chapter?, section?, position`). -/
structure SearchResult where
  chunk_id : Str
  text : Str
  source_file : Str
  chapter : Option Str
  «section» : Option Str
  position : Nat
  score : Rat
deriving DecidableEq, Repr

/-- The external collaborators: Cohere `embed_text`, Qdrant `search`
(query vector, limit, score_threshold, book_id), Cohere `chat`. Each call may
raise, modelled by `Except` with the exception text as the error. -/
structure Services where
  embed_text : Str → Except Str (List Rat)
  search : List Rat → Nat → Option Rat → Option Str → Except Str (List SearchResult)
  chat : List Message → Except Str Str

/-- The `ChatRequest` pydantic model. `mode` is kept optional here so that the
router's falsy-mode branch can be stated; after validation pydantic always
supplies the default `"full_book"`. -/
structure ChatRequest where
  query : Str
  selected_text : Option Str := none
  book_id : Option Str := none
  mode : Option Str := none
  max_chunks : Nat := 5
deriving DecidableEq, Repr

/-- The `Citation` pydantic model. -/
structure Citation where
  chunk_id : Str
  text : Str
  source : Str
  chapter : Option Str
  «section» : Option Str
  score : Rat
deriving DecidableEq, Repr

/-- Python truthiness of an optional string: present and nonempty. -/
def pyTruthyStr : Option Str → Bool
  | none => false
  | some s => !s.isEmpty

/-- The chunk dictionary built by `RetrieverAgent.retrieve`. -/
structure RChunk where
  chunk_id : Str
  text : Str
  source_file : Str
  chapter : Option Str
  «section» : Option Str
  position : Nat
  score : Rat
deriving DecidableEq, Repr

/-- Model of `RetrieverAgent.retrieve`: embed the query, search Qdrant, and format
the payloads into chunk dictionaries. -/
def RetrieverAgent.retrieve (svc : Services) (query : Str) (book_id : Option Str)
    (top_k : Nat) (score_threshold : Option Rat) : Except Str (List RChunk) := do
  let query_embedding ← svc.embed_text query
  let results ← svc.search query_embedding top_k score_threshold book_id
  pure (results.map fun r =>
    { chunk_id := r.chunk_id
      text := r.text
      source_file := r.source_file
      chapter := r.chapter
      «section» := r.«section»
      position := r.position
      score := r.score })

/-- Python `"\n\n".join(parts)`. -/
def joinBlank : List Str → Str
  | [] => []
  | [s] => s
  | s :: ss => s ++ '\n' :: '\n' :: joinBlank ss

/-- The chunk dictionary built by `SelectedTextAgent` for additional hits. -/
structure AddChunk where
  chunk_id : Str
  text : Str
  source : Str
  score : Rat
deriving DecidableEq, Repr

/-- The dictionary returned by `SelectedTextAgent.answer_with_selected_text`. -/
structure SelectedTextResult where
  forced_context : Str
  selected_text : Str
  additional_chunks : List AddChunk
  mode : Str
deriving DecidableEq, Repr

/-- Model of `SelectedTextAgent.answer_with_selected_text`: trim and cap the selected
text at 5000 characters, always force it into the context, and optionally run
a secondary search seeded by an embedding of the (sanitized) selected text
with `limit=3` and no score threshold. The `query` parameter is unused by the
body, exactly as in the source. -/
def SelectedTextAgent.answer_with_selected_text (svc : Services) (query : Str)
    (selected_text : Str) (book_id : Option Str) (retrieve_additional : Bool) :
    Except Str SelectedTextResult := do
  let selected_text := (strip selected_text).take 5000
  let forced_context := str ("[Selected Text]\n") ++ selected_text ++ str ("\n")
  let additional_chunks ←
    if retrieve_additional then do
      let selected_embedding ← svc.embed_text selected_text
      let results ← svc.search selected_embedding 3 none book_id
      pure (results.map fun r =>
        ({ chunk_id := r.chunk_id
           text := r.text
           source := r.source_file
           score := r.score } : AddChunk))
    else
      pure ([] : List AddChunk)
  pure { forced_context := forced_context
         selected_text := selected_text
         additional_chunks := additional_chunks
         mode := str ("selected_text") }

namespace RAGAgent

/-- The strict-grounding system prompt of `RAGAgent`. -/
def SYSTEM_PROMPT : Str :=
  str ("You are a helpful AI assistant that answers questions based ONLY on the provided book content.\n\nCRITICAL RULES:\n1. You MUST answer questions using ONLY the retrieved book passages provided in the context\n2. Every answer MUST include citations to specific book passages\n3. If the retrieved passages do not contain information to answer the question, respond with: \"I cannot answer this from the book content provided\"\n4. DO NOT use any outside knowledge or information not present in the retrieved passages\n5. DO NOT make up or hallucinate information\n\nResponse Format:\n- Provide a clear, direct answer to the question\n- Include citations in format: [Chapter Name](source_file) or [Section Name](source_file)\n- If multiple passages are relevant, synthesize information from all of them\n\nRemember: Your goal is to be accurate and helpful while staying strictly grounded in the provided book content.")

/-- The fixed refusal string of `RAGAgent`. -/
def FALLBACK_RESPONSE : Str :=
  str ("I cannot answer this from the book content provided.")

/-- The dictionary returned by the two private chat helpers of `RAGAgent`
(`answer`, `citations`, `chunks_retrieved`). -/
structure InnerResult where
  answer : Str
  citations : List Citation
  chunks_retrieved : Nat
deriving DecidableEq, Repr

/-- The dictionary returned by `RAGAgent.chat`; `latency_ms` (wall clock) and
`model_used` (configuration echo) are omitted. -/
structure ChatResult where
  answer : Str
  citations : List Citation
  mode : Str
  chunks_retrieved : Nat
deriving DecidableEq, Repr

/-- Model of `RAGAgent._build_context`: header line plus text per chunk, joined by
blank lines (the code opens the `[` of the header and never closes it). -/
def build_context (chunks : List RChunk) : Str :=
  joinBlank (chunks.map fun chunk =>
    (str ("[") ++ chunk.source_file ++
      (match chunk.chapter with
       | some ch => if !ch.isEmpty then str (" - ") ++ ch else []
       | none => [])) ++ ('\n' :: chunk.text))

/-- Model of `RAGAgent._extract_citations`: one citation per chunk, snippet truncated
to 200 characters plus `"..."` when longer. -/
def extract_citations (chunks : List RChunk) : List Citation :=
  chunks.map fun chunk =>
    { chunk_id := chunk.chunk_id
      text := if 200 < chunk.text.length then chunk.text.take 200 ++ str ("...")
              else chunk.text
      source := chunk.source_file
      chapter := chunk.chapter
      «section» := chunk.«section»
      score := chunk.score }

/-- Model of `RAGAgent._chat_full_book`: retrieve (no score threshold), refuse on empty
retrieval without calling the model, otherwise assemble context, call the
model, and extract citations. -/
def chat_full_book (svc : Services) (request : ChatRequest) :
    Except Str InnerResult := do
  let chunks ← RetrieverAgent.retrieve svc request.query request.book_id
    request.max_chunks none
  if chunks.isEmpty then
    pure { answer := FALLBACK_RESPONSE, citations := [], chunks_retrieved := 0 }
  else do
    let context := build_context chunks
    let messages := [
      { role := str ("system"), content := SYSTEM_PROMPT },
      { role := str ("user"),
        content := str ("Context:\n") ++ context ++ str ("\n\nQuestion: ") ++ request.query } ]
    let answer ← svc.chat messages
    pure { answer := answer
           citations := extract_citations chunks
           chunks_retrieved := chunks.length }

/-- Model of `RAGAgent._chat_with_selected_text`. Subscripting `request.selected_text`
when it is `None` would raise a `TypeError` in Python; this is modelled by the
error branch (the guard in `RAGAgent.chat` makes it unreachable from there).
The additional-chunk dictionaries carry no chapter/section keys, so
`ch.get(...)` yields `None` for those citation fields. -/
def chat_with_selected_text (svc : Services) (request : ChatRequest) :
    Except Str InnerResult := do
  match request.selected_text with
  | none => Except.error (str ("TypeError: selected_text is None"))
  | some sel => do
    let result ← SelectedTextAgent.answer_with_selected_text svc request.query sel
      request.book_id true
    let context := result.forced_context
    let context :=
      if !result.additional_chunks.isEmpty then
        context ++ str ("\n\n[Additional Relevant Content]\n") ++
          joinBlank (result.additional_chunks.map fun ch =>
            str ("[") ++ ch.source ++ str ("] ") ++ ch.text)
      else context
    let messages := [
      { role := str ("system"), content := SYSTEM_PROMPT },
      { role := str ("user"),
        content := str ("Context:\n") ++ context ++ str ("\n\nQuestion: ") ++ request.query } ]
    let answer ← svc.chat messages
    let citations :=
      ({ chunk_id := str ("selected")
         text := if 200 < sel.length then sel.take 200 ++ str ("...") else sel
         source := str ("User Selection")
         chapter := none
         «section» := none
         score := 1 } : Citation)
      :: result.additional_chunks.map (fun ch =>
          ({ chunk_id := ch.chunk_id
             text := if 200 < ch.text.length then ch.text.take 200 ++ str ("...")
                     else ch.text
             source := ch.source
             chapter := none
             «section» := none
             score := ch.score } : Citation))
    pure { answer := answer
           citations := citations
           chunks_retrieved := result.additional_chunks.length + 1 }

/-- The body of the `try` block in `RAGAgent.chat`: mode dispatch. -/
def chatInner (svc : Services) (request : ChatRequest) (mode : Str) :
    Except Str InnerResult :=
  if mode = str ("selected_text") ∧ pyTruthyStr request.selected_text = true then
    chat_with_selected_text svc request
  else
    chat_full_book svc request

/-- Model of `RAGAgent.chat`: dispatch on mode, and convert any exception of the
pipeline into the fixed fallback response with empty citations and zero
chunks. The function is total: no exception escapes. -/
def chat (svc : Services) (request : ChatRequest) (mode : Str) : ChatResult :=
  match chatInner svc request mode with
  | Except.ok result =>
    { answer := result.answer
      citations := result.citations
      mode := mode
      chunks_retrieved := result.chunks_retrieved }
  | Except.error _ =>
    { answer := FALLBACK_RESPONSE
      citations := []
      mode := mode
      chunks_retrieved := 0 }

end RAGAgent

/-- Model of `RouterAgent.detect_mode`, auto-detection branch: selected-text mode when
`selected_text` is truthy and nonempty after stripping. -/
def RouterAgent.detect_auto (request : ChatRequest) : Str :=
  match request.selected_text with
  | some s => if !s.isEmpty && !(strip s).isEmpty then str ("selected_text")
              else str ("full_book")
  | none => str ("full_book")

/-- Model of `RouterAgent.detect_mode`: an explicitly given (truthy) mode wins;
otherwise auto-detect from `selected_text`. -/
def RouterAgent.detect_mode (request : ChatRequest) : Str :=
  match request.mode with
  | some m => if !m.isEmpty then m else RouterAgent.detect_auto request
  | none => RouterAgent.detect_auto request

namespace ChatApi

/-- An apostrophe character (used inside the prompt texts). -/
def apos : Char := Char.ofNat 39

/-- The RAG system prompt of `app/api/chat.py`. -/
def RAG_SYSTEM_PROMPT : Str :=
  str ("You are a helpful AI assistant that answers questions based on the provided book passages.\n\nCRITICAL RULES:\n1. You MUST answer questions using ONLY the retrieved book passages provided in the context\n2. If the passages do not contain information to answer the question, say \"Based on the provided content, I don") ++
  [apos] ++
  str ("t have enough information to answer this question.\"\n3. DO NOT use outside knowledge or information not present in the retrieved passages\n4. DO NOT make up or hallucinate information\n\nResponse Format:\n- Provide a clear, direct answer to the question\n- Reference the passages you used in your answer\n- Synthesize information from multiple passages if relevant")

/-- The simple (ungrounded) system prompt of `app/api/chat.py`. -/
def SIMPLE_SYSTEM_PROMPT : Str :=
  str ("You are a helpful AI assistant.\n\nYour role is to:\n- Answer questions clearly and concisely\n- Provide practical examples when relevant\n- Be friendly and conversational\n- Help users with software development, AI, and technical topics\n- If you don") ++
  [apos] ++
  str ("t know something specific, be honest about it")

/-- The chunk dictionary built by `retrieve_context` (it carries no
`position` key, unlike the retriever agent's dictionary). -/
structure ApiChunk where
  chunk_id : Str
  text : Str
  source_file : Str
  chapter : Option Str
  «section» : Option Str
  score : Rat
deriving DecidableEq, Repr

/-- The `ChatResponse` pydantic model; `latency_ms` and `model_used` are
omitted. -/
structure ChatResponse where
  answer : Str
  citations : List Citation
  mode : Str
  chunks_retrieved : Nat
deriving DecidableEq, Repr

/-- Model of `retrieve_context` of `app/api/chat.py`: embed the query and search
Qdrant with no score threshold. -/
def retrieve_context (svc : Services) (query : Str) (book_id : Option Str)
    (top_k : Nat) : Except Str (List ApiChunk) := do
  let query_embedding ← svc.embed_text query
  let results ← svc.search query_embedding top_k none book_id
  pure (results.map fun r =>
    { chunk_id := r.chunk_id
      text := r.text
      source_file := r.source_file
      chapter := r.chapter
      «section» := r.«section»
      score := r.score })

/-- Model of `build_context` of `app/api/chat.py` (same rendering as the agent's). -/
def build_context (chunks : List ApiChunk) : Str :=
  joinBlank (chunks.map fun chunk =>
    (str ("[") ++ chunk.source_file ++
      (match chunk.chapter with
       | some ch => if !ch.isEmpty then str (" - ") ++ ch else []
       | none => [])) ++ ('\n' :: chunk.text))

/-- Model of `extract_citations` of `app/api/chat.py`: snippet truncated to 200
characters plus `"..."` when longer. -/
def extract_citations (chunks : List ApiChunk) : List Citation :=
  chunks.map fun chunk =>
    { chunk_id := chunk.chunk_id
      text := if 200 < chunk.text.length then chunk.text.take 200 ++ str ("...")
              else chunk.text
      source := chunk.source_file
      chapter := chunk.chapter
      «section» := chunk.«section»
      score := chunk.score }

/-- The `rag_chat` endpoint of `app/api/chat.py`: retrieve, keep hits with
score at least `0.4`; if any remain, answer grounded in them (mode `"rag"`),
otherwise fall back to an ungrounded simple-chat answer (mode `"simple"`).
Any exception is converted into a `"Sorry, I encountered an error: ..."`
response. -/
def rag_chat (svc : Services) (request : ChatRequest) : ChatResponse :=
  let inner : Except Str ChatResponse := do
    let chunks ← retrieve_context svc request.query request.book_id
      (if request.max_chunks = 0 then 5 else request.max_chunks)
    let relevant_chunks := chunks.filter (fun c => (0.4 : Rat) ≤ c.score)
    if !relevant_chunks.isEmpty then do
      let context := build_context relevant_chunks
      let messages := [
        { role := str ("system"), content := RAG_SYSTEM_PROMPT },
        { role := str ("user"),
          content := str ("Context:\n") ++ context ++ str ("\n\nQuestion: ") ++ request.query } ]
      let answer ← svc.chat messages
      pure { answer := answer
             citations := extract_citations relevant_chunks
             mode := str ("rag")
             chunks_retrieved := relevant_chunks.length }
    else do
      let messages := [
        { role := str ("system"), content := SIMPLE_SYSTEM_PROMPT },
        { role := str ("user"), content := request.query } ]
      let answer ← svc.chat messages
      pure { answer := answer
             citations := []
             mode := str ("simple")
             chunks_retrieved := 0 }
  match inner with
  | Except.ok r => r
  | Except.error e =>
    { answer := str ("Sorry, I encountered an error: ") ++ e
      citations := []
      mode := str ("rag")
      chunks_retrieved := 0 }

end ChatApi

/-- Concrete chunking configuration used by the concrete instances below:
`chunk_size = 10`, no overlap. -/
def svcC4 : ChunkingService := ⟨10, 0⟩

/-- Concrete segmentation input: three paragraphs of lengths 4, 6 and 1. -/
def textC4 : Str := str ("aaaa\n\nbbbbbb\n\nc")

/-- The first chunk produced from `textC4`: two paragraphs plus the uncounted
two-character joiner, 12 characters, token estimate 3. -/
def chunkC4 : Chunk :=
  { text := str ("aaaa\n\nbbbbbb")
    source_file := str ("t")
    chapter := none
    «section» := none
    position := 0
    token_count := 3 }

/-- C5: for every unit produced by segmentation, `token_estimate` equals
`len(text) // 4` of the unit's own stored text (the buffer is always free of
surrounding whitespace, so stripping it for storage changes nothing). -/
theorem spec_c5_theorem :
    ∀ (svc : ChunkingService) (text source_file : Str),
      ∀ c ∈ svc.chunk_text text source_file, c.token_count = c.text.length / 4 :=
  fun _ _ _ => chunk_text_tokens

/-- Witness for C5 at a concrete input. -/
theorem spec_c5_witness : chunkC4.token_count = chunkC4.text.length / 4 :=
  spec_c5_theorem svcC4 textC4 (str ("t")) chunkC4 (by decide)

/-- C7: positions are assigned sequentially from 0 both by `chunk_text` and by
the ingestion orchestrator's global renumbering, hence they strictly increase
in emission order (in particular within any one `source_id`). -/
theorem spec_c7_theorem :
    ∀ (svc : ChunkingService) (text source_file : Str),
      ((svc.chunk_text text source_file).map (fun c => c.position) =
        List.range (svc.chunk_text text source_file).length) ∧
      (svc.chunk_text text source_file).Pairwise (fun a b => a.position < b.position) ∧
      ∀ files : List (Str × Str),
        ((process_files svc files).map (fun c => c.position) =
          List.range (process_files svc files).length) ∧
        (process_files svc files).Pairwise (fun a b => a.position < b.position) := by
  intro svc text sf
  refine ⟨chunk_text_positions svc text sf,
    pairwise_of_positions_range (chunk_text_positions svc text sf), ?_⟩
  intro files
  exact ⟨process_files_positions svc files,
    pairwise_of_positions_range (process_files_positions svc files)⟩

/-- C4 (amended): with `overlap_size = 0`, every produced unit satisfies
`token_estimate ≤ (max_unit_size + 2) / 4` — the two-character blank-line
joiner is not counted by the size check — except when a unit is a single
input paragraph longer than `max_unit_size`; the `max_unit_size / 4` bound of
the claim is exceeded (see the counterexample), and with `overlap_size > 0`
overlap-seeded buffers escape any such bound. -/
theorem spec_c4_theorem :
    ∀ (svc : ChunkingService) (text source_file : Str), svc.chunk_overlap = 0 →
      ∀ c ∈ svc.chunk_text text source_file,
        c.token_count ≤ (svc.chunk_size + 2) / 4 ∨
        (c.text ∈ split_into_paragraphs text ∧ svc.chunk_size < c.text.length) := by
  intro svc text sf hov0 c hc
  rcases chunk_text_size hov0 c hc with h | h
  · left
    rw [chunk_text_tokens c hc]
    exact Nat.div_le_div_right h
  · right
    exact h

/-- Witness for C4 at a concrete input. -/
theorem spec_c4_witness :
    chunkC4.token_count ≤ (svcC4.chunk_size + 2) / 4 ∨
    (chunkC4.text ∈ split_into_paragraphs textC4 ∧ svcC4.chunk_size < chunkC4.text.length) :=
  spec_c4_theorem svcC4 textC4 (str ("t")) rfl chunkC4 (by decide)

/-- Counterexample for C4 as stated: with `max_unit_size = 10` and no overlap,
the input `"aaaa\n\nbbbbbb\n\nc"` yields a first unit with `token_estimate = 3`,
which exceeds `max_unit_size / 4` under integer and under exact division,
while no single input paragraph exceeds `max_unit_size`. -/
theorem spec_c4_counterexample :
    ((svcC4.chunk_text textC4 (str ("t"))).map fun c => c.token_count) = [3, 0] ∧
    ¬ (3 ≤ svcC4.chunk_size / 4) ∧
    ¬ ((3 : Rat) ≤ (svcC4.chunk_size : Rat) / 4) ∧
    ((split_into_paragraphs textC4).all fun p => decide (p.length ≤ svcC4.chunk_size)) = true := by
  refine ⟨by decide, by decide, ?_, by decide⟩
  norm_num [svcC4]

/-- C3: the mode router is a pure function of `(mode, selected_text)`; a
truthy explicit mode is honored unconditionally; with the mode absent or
falsy, pinned-passage mode is selected exactly when `selected_text` is
nonempty after trimming surrounding whitespace (whitespace-only text routes
to whole-corpus). -/
theorem spec_c3_theorem :
    ∀ request : ChatRequest,
      (∀ m, request.mode = some m → m ≠ [] → RouterAgent.detect_mode request = m) ∧
      ((request.mode = none ∨ request.mode = some []) →
        ((∃ s, request.selected_text = some s ∧ strip s ≠ []) →
            RouterAgent.detect_mode request = str ("selected_text")) ∧
        ((∀ s, request.selected_text = some s → strip s = []) →
            RouterAgent.detect_mode request = str ("full_book"))) ∧
      (∀ request' : ChatRequest, request.mode = request'.mode →
          request.selected_text = request'.selected_text →
          RouterAgent.detect_mode request = RouterAgent.detect_mode request') := by
  intro request
  refine ⟨?_, ?_, ?_⟩
  · intro m hm hne
    simp only [RouterAgent.detect_mode, hm]
    have : m.isEmpty = false := by
      cases m with
      | nil => exact absurd rfl hne
      | cons c s => rfl
    simp [this]
  · intro hmode
    constructor
    · rintro ⟨s, hs, hstrip⟩
      have hsne : s ≠ [] := ne_nil_of_strip_ne_nil hstrip
      have hse : s.isEmpty = false := by
        cases s with
        | nil => exact absurd rfl hsne
        | cons c t => rfl
      have hste : (strip s).isEmpty = false := by
        cases hst : strip s with
        | nil => exact absurd hst hstrip
        | cons c t => rfl
      rcases hmode with h | h <;>
        simp [RouterAgent.detect_mode, RouterAgent.detect_auto, h, hs, hse, hste]
    · intro hall
      rcases hmode with h | h <;>
      · cases hsel : request.selected_text with
        | none => simp [RouterAgent.detect_mode, RouterAgent.detect_auto, h, hsel]
        | some s =>
          have hste : (strip s).isEmpty = true := by
            rw [hall s hsel]; rfl
          simp [RouterAgent.detect_mode, RouterAgent.detect_auto, h, hsel, hste]
  · intro request' h1 h2
    simp only [RouterAgent.detect_mode, RouterAgent.detect_auto, h1, h2]

/-- Witness for C3: whitespace-only selection under absent mode routes to
whole-corpus; a real selection routes to pinned-passage; an explicit mode
wins. -/
theorem spec_c3_witness :
    RouterAgent.detect_mode { query := str ("q"), mode := none,
                              selected_text := some (str ("   ")) } = str ("full_book") ∧
    RouterAgent.detect_mode { query := str ("q"), mode := none,
                              selected_text := some (str ("x")) } = str ("selected_text") ∧
    RouterAgent.detect_mode { query := str ("q"), mode := some (str ("full_book")),
                              selected_text := some (str ("x")) } = str ("full_book") := by
  refine ⟨?_, ?_, ?_⟩
  · exact ((spec_c3_theorem _).2.1 (Or.inl rfl)).2
      (fun s hs => by cases hs; decide)
  · exact ((spec_c3_theorem _).2.1 (Or.inl rfl)).1 ⟨str ("x"), rfl, by decide⟩
  · exact (spec_c3_theorem _).1 (str ("full_book")) rfl (by decide)

/-- Services whose vector search finds nothing (and whose model, if asked,
answers from general knowledge). -/
def svcEmpty : Services :=
  { embed_text := fun _ => Except.ok [1]
    search := fun _ _ _ _ => Except.ok []
    chat := fun _ => Except.ok (str ("General model answer")) }

/-- Services whose embedding call raises. -/
def svcBoom : Services :=
  { embed_text := fun _ => Except.error (str ("boom"))
    search := fun _ _ _ _ => Except.ok []
    chat := fun _ => Except.ok (str ("ANSWER")) }

/-- A plain whole-corpus request (no selection, defaults elsewhere). -/
def reqPlain : ChatRequest := { query := str ("What is X?") }

/-- Helper: on the whole-corpus path, empty retrieval makes the pipeline
return the fallback result without consulting the chat service. -/
theorem chatInner_full_book_empty (svc : Services) (request : ChatRequest)
    (h : RetrieverAgent.retrieve svc request.query request.book_id
      request.max_chunks none = Except.ok []) :
    RAGAgent.chatInner svc request (str ("full_book")) =
      Except.ok { answer := RAGAgent.FALLBACK_RESPONSE, citations := [],
                  chunks_retrieved := 0 } := by
  unfold RAGAgent.chatInner
  have hcond : ¬(str ("full_book") = str ("selected_text") ∧
      pyTruthyStr request.selected_text = true) :=
    fun hcon => absurd hcon.1 (by decide)
  rw [if_neg hcond]
  unfold RAGAgent.chat_full_book
  rw [h]
  rfl

/-- C1 (amended): on the orchestrator's whole-corpus path (`RAGAgent.chat`),
empty retrieval yields the fixed refusal, no citations, zero units, and a
result independent of the chat service (the model is not invoked); the REST
endpoint `rag_chat` instead falls back to an ungrounded simple-chat answer on
empty retrieval (see the counterexample). -/
theorem spec_c1_theorem :
    ∀ (svc : Services) (request : ChatRequest),
      RetrieverAgent.retrieve svc request.query request.book_id
        request.max_chunks none = Except.ok [] →
      (RAGAgent.chat svc request (str ("full_book")) =
        { answer := RAGAgent.FALLBACK_RESPONSE, citations := [],
          mode := str ("full_book"), chunks_retrieved := 0 }) ∧
      ∀ chatFn, RAGAgent.chat { svc with chat := chatFn } request (str ("full_book")) =
        RAGAgent.chat svc request (str ("full_book")) := by
  intro svc request h
  have hres : ∀ s : Services,
      RetrieverAgent.retrieve s request.query request.book_id
        request.max_chunks none = Except.ok [] →
      RAGAgent.chat s request (str ("full_book")) =
        { answer := RAGAgent.FALLBACK_RESPONSE, citations := [],
          mode := str ("full_book"), chunks_retrieved := 0 } := by
    intro s hs
    unfold RAGAgent.chat
    rw [chatInner_full_book_empty s request hs]
  refine ⟨hres svc h, ?_⟩
  intro chatFn
  rw [hres svc h, hres { svc with chat := chatFn } h]

/-- Witness for C1 at concrete services with empty search results. -/
theorem spec_c1_witness :
    RAGAgent.chat svcEmpty reqPlain (str ("full_book")) =
      { answer := RAGAgent.FALLBACK_RESPONSE, citations := [],
        mode := str ("full_book"), chunks_retrieved := 0 } :=
  (spec_c1_theorem svcEmpty reqPlain rfl).1

/-- Counterexample for C1 as stated: the `rag_chat` endpoint, on a request
whose retrieval is empty, invokes the model with the simple prompt and
returns its (non-refusal) answer; changing the chat service changes the
outcome, so the model is invoked. -/
theorem spec_c1_counterexample :
    ChatApi.retrieve_context svcEmpty reqPlain.query reqPlain.book_id 5 =
      Except.ok [] ∧
    (ChatApi.rag_chat svcEmpty reqPlain).answer = str ("General model answer") ∧
    (ChatApi.rag_chat svcEmpty reqPlain).answer ≠ RAGAgent.FALLBACK_RESPONSE ∧
    (ChatApi.rag_chat svcEmpty reqPlain).citations = [] ∧
    ChatApi.rag_chat { svcEmpty with chat := fun _ => Except.ok (str ("Other")) }
        reqPlain ≠ ChatApi.rag_chat svcEmpty reqPlain := by
  refine ⟨rfl, rfl, by decide, rfl, by decide⟩

/-- C2 (amended): any exception of the embedding/search/generation pipeline
is caught at the `RAGAgent.chat` boundary and converted into the fixed
refusal with empty citations and zero units (never re-raised: `chat` is
total), and the refusal string is the same one returned for empty retrieval;
the REST endpoint `rag_chat` instead answers
`"Sorry, I encountered an error: ..."` on an exception (see the
counterexample). -/
theorem spec_c2_theorem :
    ∀ (svc : Services) (request : ChatRequest) (mode : Str),
      (∀ e, RAGAgent.chatInner svc request mode = Except.error e →
        RAGAgent.chat svc request mode =
          { answer := RAGAgent.FALLBACK_RESPONSE, citations := [],
            mode := mode, chunks_retrieved := 0 }) ∧
      (RetrieverAgent.retrieve svc request.query request.book_id
          request.max_chunks none = Except.ok [] →
        (RAGAgent.chat svc request (str ("full_book"))).answer =
          RAGAgent.FALLBACK_RESPONSE) := by
  intro svc request mode
  constructor
  · intro e he
    unfold RAGAgent.chat
    rw [he]
  · intro h
    unfold RAGAgent.chat
    rw [chatInner_full_book_empty svc request h]

/-- Witness for C2: a raising embedding call yields the refusal result, and
the same string is returned on empty retrieval. -/
theorem spec_c2_witness :
    (RAGAgent.chat svcBoom reqPlain (str ("full_book")) =
      { answer := RAGAgent.FALLBACK_RESPONSE, citations := [],
        mode := str ("full_book"), chunks_retrieved := 0 }) ∧
    (RAGAgent.chat svcEmpty reqPlain (str ("full_book"))).answer =
      RAGAgent.FALLBACK_RESPONSE :=
  ⟨(spec_c2_theorem svcBoom reqPlain (str ("full_book"))).1 (str ("boom")) rfl,
   (spec_c2_theorem svcEmpty reqPlain (str ("full_book"))).2 rfl⟩

/-- Counterexample for C2 as stated: on an exception, the `rag_chat` endpoint
returns an error-echo string, not the fixed refusal string. -/
theorem spec_c2_counterexample :
    (ChatApi.rag_chat svcBoom reqPlain).answer =
      str ("Sorry, I encountered an error: boom") ∧
    (ChatApi.rag_chat svcBoom reqPlain).answer ≠ RAGAgent.FALLBACK_RESPONSE := by
  refine ⟨rfl, by decide⟩

/-- C10 (amended): a request with mode `"selected_text"` but absent or empty
`selected_text` is silently handled by the whole-corpus path; answer,
citations and retrieved-unit count coincide with mode `"full_book"`, but the
echoed `mode` field still reports `"selected_text"`, so the full result
dictionaries differ (see the counterexample). -/
theorem spec_c10_theorem :
    ∀ (svc : Services) (request : ChatRequest),
      (request.selected_text = none ∨ request.selected_text = some []) →
      RAGAgent.chatInner svc request (str ("selected_text")) =
        RAGAgent.chat_full_book svc request ∧
      (RAGAgent.chat svc request (str ("selected_text"))).answer =
        (RAGAgent.chat svc request (str ("full_book"))).answer ∧
      (RAGAgent.chat svc request (str ("selected_text"))).citations =
        (RAGAgent.chat svc request (str ("full_book"))).citations ∧
      (RAGAgent.chat svc request (str ("selected_text"))).chunks_retrieved =
        (RAGAgent.chat svc request (str ("full_book"))).chunks_retrieved ∧
      (RAGAgent.chat svc request (str ("selected_text"))).mode =
        str ("selected_text") := by
  intro svc request h
  have hfalsy : pyTruthyStr request.selected_text = false := by
    rcases h with h | h <;> rw [h] <;> rfl
  have hsel : RAGAgent.chatInner svc request (str ("selected_text")) =
      RAGAgent.chat_full_book svc request := by
    unfold RAGAgent.chatInner
    rw [if_neg (fun hcon => by rw [hfalsy] at hcon; exact Bool.false_ne_true hcon.2)]
  have hful : RAGAgent.chatInner svc request (str ("full_book")) =
      RAGAgent.chat_full_book svc request := by
    unfold RAGAgent.chatInner
    rw [if_neg (fun hcon => absurd hcon.1 (by decide))]
  refine ⟨hsel, ?_⟩
  unfold RAGAgent.chat
  rw [hsel, hful]
  cases RAGAgent.chat_full_book svc request with
  | ok r => exact ⟨rfl, rfl, rfl, rfl⟩
  | error e => exact ⟨rfl, rfl, rfl, rfl⟩

/-- Witness for C10 at concrete services and a request without selection. -/
theorem spec_c10_witness :
    RAGAgent.chatInner svcEmpty reqPlain (str ("selected_text")) =
      RAGAgent.chat_full_book svcEmpty reqPlain ∧
    (RAGAgent.chat svcEmpty reqPlain (str ("selected_text"))).answer =
      (RAGAgent.chat svcEmpty reqPlain (str ("full_book"))).answer ∧
    (RAGAgent.chat svcEmpty reqPlain (str ("selected_text"))).citations =
      (RAGAgent.chat svcEmpty reqPlain (str ("full_book"))).citations ∧
    (RAGAgent.chat svcEmpty reqPlain (str ("selected_text"))).chunks_retrieved =
      (RAGAgent.chat svcEmpty reqPlain (str ("full_book"))).chunks_retrieved ∧
    (RAGAgent.chat svcEmpty reqPlain (str ("selected_text"))).mode =
      str ("selected_text") :=
  spec_c10_theorem svcEmpty reqPlain (Or.inl rfl)

/-- Counterexample for C10 as stated: the two result dictionaries are not
equal — the echoed mode field differs. -/
theorem spec_c10_counterexample :
    RAGAgent.chat svcEmpty reqPlain (str ("selected_text")) ≠
      RAGAgent.chat svcEmpty reqPlain (str ("full_book")) := by
  decide

/-- Helper: successful run of the selected-text agent with the secondary
retrieval enabled, characterised by its embedding and search calls. -/
theorem answer_with_selected_text_ok {svc : Services} {query sel : Str}
    {book_id : Option Str} {r : SelectedTextResult}
    (h : SelectedTextAgent.answer_with_selected_text svc query sel book_id true =
      Except.ok r) :
    ∃ emb results, svc.embed_text ((strip sel).take 5000) = Except.ok emb ∧
      svc.search emb 3 none book_id = Except.ok results ∧
      r = { forced_context :=
              str ("[Selected Text]\n") ++ (strip sel).take 5000 ++ str ("\n")
            selected_text := (strip sel).take 5000
            additional_chunks := results.map fun res =>
              { chunk_id := res.chunk_id, text := res.text,
                source := res.source_file, score := res.score }
            mode := str ("selected_text") } := by
  unfold SelectedTextAgent.answer_with_selected_text at h
  simp only [if_true, bind, Except.bind, pure, Except.pure] at h
  split at h
  · cases h
  · rename_i emb hemb
    split at h
    · cases h
    · rename_i results hsrch
      cases h
      exact ⟨emb, results, hemb, hsrch, rfl⟩

/-- Helper: successful run of the selected-text agent without the secondary
retrieval. -/
theorem answer_with_selected_text_ok_false {svc : Services} {query sel : Str}
    {book_id : Option Str} {r : SelectedTextResult}
    (h : SelectedTextAgent.answer_with_selected_text svc query sel book_id false =
      Except.ok r) :
    r = { forced_context :=
            str ("[Selected Text]\n") ++ (strip sel).take 5000 ++ str ("\n")
          selected_text := (strip sel).take 5000
          additional_chunks := []
          mode := str ("selected_text") } := by
  unfold SelectedTextAgent.answer_with_selected_text at h
  simp only [if_false, bind, Except.bind, pure, Except.pure] at h
  cases h
  rfl

/-- Helper: successful run of `RAGAgent._chat_with_selected_text`,
characterised by the selected-text agent call and the produced citations. -/
theorem chat_with_selected_text_ok {svc : Services} {request : ChatRequest}
    {sel : Str} {r : RAGAgent.InnerResult}
    (hsel : request.selected_text = some sel)
    (h : RAGAgent.chat_with_selected_text svc request = Except.ok r) :
    ∃ ares, SelectedTextAgent.answer_with_selected_text svc request.query sel
        request.book_id true = Except.ok ares ∧
      r.citations =
        ({ chunk_id := str ("selected")
           text := if 200 < sel.length then sel.take 200 ++ str ("...") else sel
           source := str ("User Selection")
           chapter := none
           «section» := none
           score := 1 } : Citation)
        :: ares.additional_chunks.map (fun ch =>
            ({ chunk_id := ch.chunk_id
               text := if 200 < ch.text.length then ch.text.take 200 ++ str ("...")
                       else ch.text
               source := ch.source
               chapter := none
               «section» := none
               score := ch.score } : Citation)) ∧
      r.chunks_retrieved = ares.additional_chunks.length + 1 := by
  unfold RAGAgent.chat_with_selected_text at h
  rw [hsel] at h
  simp only [bind, Except.bind, pure, Except.pure] at h
  split at h
  · cases h
  · rename_i ares hares
    split at h
    · cases h
    · rename_i answer hchat
      cases h
      exact ⟨ares, hares, rfl, rfl⟩

/-- C8: in pinned-passage mode the citation list starts with the synthetic
user-selection citation (reserved identifier `"selected"`, score `1.0`),
followed in order by one citation per additionally retrieved unit. -/
theorem spec_c8_theorem :
    ∀ (svc : Services) (request : ChatRequest) (sel : Str) (r : RAGAgent.InnerResult),
      request.selected_text = some sel →
      RAGAgent.chat_with_selected_text svc request = Except.ok r →
      ∃ ares c₀ cs,
        SelectedTextAgent.answer_with_selected_text svc request.query sel
          request.book_id true = Except.ok ares ∧
        r.citations = c₀ :: cs ∧
        c₀.chunk_id = str ("selected") ∧ c₀.score = 1 ∧
        c₀.source = str ("User Selection") ∧
        List.Forall₂ (fun ch cit => cit.chunk_id = ch.chunk_id ∧
          cit.score = ch.score ∧ cit.source = ch.source)
          ares.additional_chunks cs := by
  intro svc request sel r hsel h
  obtain ⟨ares, hares, hcit, _⟩ := chat_with_selected_text_ok hsel h
  refine ⟨ares, _, _, hares, hcit, rfl, rfl, rfl, ?_⟩
  rw [List.forall₂_map_right_iff, List.forall₂_same]
  intro ch _
  exact ⟨rfl, rfl, rfl⟩

/-- C9: the selected-passage handler trims and caps the selection at 5000
characters (never rejecting), always embeds it verbatim in the forced
context, never reads the query, and, when additional retrieval is on, runs
the secondary search on an embedding of the (sanitized) selected text with
limit 3 and no score floor. -/
theorem spec_c9_theorem :
    ∀ (svc : Services) (query selected_text : Str) (book_id : Option Str)
      (retrieve_additional : Bool) (r : SelectedTextResult),
      SelectedTextAgent.answer_with_selected_text svc query selected_text book_id
        retrieve_additional = Except.ok r →
      r.selected_text = (strip selected_text).take 5000 ∧
      r.selected_text.length ≤ 5000 ∧
      r.forced_context = str ("[Selected Text]\n") ++ r.selected_text ++ str ("\n") ∧
      (∀ query', SelectedTextAgent.answer_with_selected_text svc query' selected_text
        book_id retrieve_additional = Except.ok r) ∧
      (retrieve_additional = true →
        ∃ emb results, svc.embed_text r.selected_text = Except.ok emb ∧
          svc.search emb 3 none book_id = Except.ok results ∧
          r.additional_chunks = results.map fun res =>
            ({ chunk_id := res.chunk_id, text := res.text,
               source := res.source_file, score := res.score } : AddChunk)) := by
  intro svc query sel book_id ra r h
  have hq : ∀ query', SelectedTextAgent.answer_with_selected_text svc query' sel
      book_id ra = Except.ok r := fun _ => h
  have hlen : ((strip sel).take 5000).length ≤ 5000 := by
    rw [List.length_take]
    exact Nat.min_le_left 5000 (strip sel).length
  cases ra with
  | false =>
    have hr := answer_with_selected_text_ok_false h
    subst hr
    exact ⟨rfl, hlen, rfl, hq, fun hcon => by cases hcon⟩
  | true =>
    obtain ⟨emb, results, hemb, hsrch, hr⟩ := answer_with_selected_text_ok h
    subst hr
    exact ⟨rfl, hlen, rfl, hq, fun _ => ⟨emb, results, hemb, hsrch, rfl⟩⟩

/-- Snippet contract of the citation extractors: texts longer than 200
characters are cut to exactly their first 200 characters plus `"..."`,
shorter texts are kept verbatim. -/
def SnippetSpec (unitText snippet : Str) : Prop :=
  (200 < unitText.length →
    snippet = unitText.take 200 ++ str ("...") ∧ (unitText.take 200).length = 200) ∧
  (unitText.length ≤ 200 → snippet = unitText)

theorem snippetSpec_of_trunc (t : Str) :
    SnippetSpec t (if 200 < t.length then t.take 200 ++ str ("...") else t) := by
  by_cases h : 200 < t.length
  · rw [if_pos h]
    exact ⟨fun _ => ⟨rfl, by rw [List.length_take]; omega⟩,
      fun hle => absurd h (by omega)⟩
  · rw [if_neg h]
    exact ⟨fun hc => absurd hc h, fun _ => rfl⟩

/-- C6: at every citation-extraction site — the retriever-based extractor of
`RAGAgent`, the endpoint-level extractor of `app/api/chat.py`, and the two
inline truncations of the pinned-passage path — the snippet is the first 200
characters plus the ellipsis marker when the unit text is longer than 200
characters, and the exact text otherwise. -/
theorem spec_c6_theorem :
    (∀ chunks : List RChunk, List.Forall₂ (fun ch cit => SnippetSpec ch.text cit.text)
        chunks (RAGAgent.extract_citations chunks)) ∧
    (∀ chunks : List ChatApi.ApiChunk,
      List.Forall₂ (fun ch cit => SnippetSpec ch.text cit.text)
        chunks (ChatApi.extract_citations chunks)) ∧
    (∀ (svc : Services) (request : ChatRequest) (sel : Str) (r : RAGAgent.InnerResult),
      request.selected_text = some sel →
      RAGAgent.chat_with_selected_text svc request = Except.ok r →
      ∃ ares, SelectedTextAgent.answer_with_selected_text svc request.query sel
          request.book_id true = Except.ok ares ∧
        List.Forall₂ (fun t cit => SnippetSpec t cit.text)
          (sel :: ares.additional_chunks.map (fun ch => ch.text)) r.citations) := by
  refine ⟨?_, ?_, ?_⟩
  · intro chunks
    unfold RAGAgent.extract_citations
    rw [List.forall₂_map_right_iff, List.forall₂_same]
    intro ch _
    exact snippetSpec_of_trunc ch.text
  · intro chunks
    unfold ChatApi.extract_citations
    rw [List.forall₂_map_right_iff, List.forall₂_same]
    intro ch _
    exact snippetSpec_of_trunc ch.text
  · intro svc request sel r hsel h
    obtain ⟨ares, hares, hcit, _⟩ := chat_with_selected_text_ok hsel h
    refine ⟨ares, hares, ?_⟩
    rw [hcit]
    refine List.Forall₂.cons (snippetSpec_of_trunc sel) ?_
    rw [List.forall₂_map_left_iff, List.forall₂_map_right_iff, List.forall₂_same]
    intro ch _
    exact snippetSpec_of_trunc ch.text

/-- One concrete Qdrant hit. -/
def hitA : SearchResult :=
  { chunk_id := str ("c1"), text := str ("alpha"), source_file := str ("s.md"),
    chapter := none, «section» := none, position := 0, score := 1 }

/-- Services returning exactly one search hit. -/
def svcOne : Services :=
  { embed_text := fun _ => Except.ok [1]
    search := fun _ _ _ _ => Except.ok [hitA]
    chat := fun _ => Except.ok (str ("ANSWER")) }

/-- A pinned-passage request with an untrimmed selection. -/
def reqSel : ChatRequest :=
  { query := str ("q"), selected_text := some (str (" hello ")) }

/-- The inner result of the pinned-passage path on `svcOne`/`reqSel`. -/
def rSel : RAGAgent.InnerResult :=
  { answer := str ("ANSWER")
    citations := [
      { chunk_id := str ("selected"), text := str (" hello "),
        source := str ("User Selection"), chapter := none, «section» := none,
        score := 1 },
      { chunk_id := str ("c1"), text := str ("alpha"), source := str ("s.md"),
        chapter := none, «section» := none, score := 1 } ]
    chunks_retrieved := 2 }

/-- The selected-text agent result on `svcOne` for selection `" hello "`. -/
def rSel9 : SelectedTextResult :=
  { forced_context := str ("[Selected Text]\nhello\n")
    selected_text := str ("hello")
    additional_chunks := [
      { chunk_id := str ("c1"), text := str ("alpha"), source := str ("s.md"),
        score := 1 } ]
    mode := str ("selected_text") }

/-- One concrete retriever chunk dictionary. -/
def rchunkA : RChunk :=
  { chunk_id := str ("c1"), text := str ("alpha"), source_file := str ("s.md"),
    chapter := none, «section» := none, position := 0, score := 1 }

/-- Witness for C8 at concrete services and request. -/
theorem spec_c8_witness :
    ∃ ares c₀ cs,
      SelectedTextAgent.answer_with_selected_text svcOne reqSel.query
        (str (" hello ")) reqSel.book_id true = Except.ok ares ∧
      rSel.citations = c₀ :: cs ∧
      c₀.chunk_id = str ("selected") ∧ c₀.score = 1 ∧
      c₀.source = str ("User Selection") ∧
      List.Forall₂ (fun ch cit => cit.chunk_id = ch.chunk_id ∧
        cit.score = ch.score ∧ cit.source = ch.source)
        ares.additional_chunks cs :=
  spec_c8_theorem svcOne reqSel (str (" hello ")) rSel rfl rfl

/-- Witness for C9 at concrete services (binder-free projections). -/
theorem spec_c9_witness :
    rSel9.selected_text = (strip (str (" hello "))).take 5000 ∧
    rSel9.selected_text.length ≤ 5000 ∧
    rSel9.forced_context = str ("[Selected Text]\n") ++ rSel9.selected_text ++ str ("\n") :=
  ⟨(spec_c9_theorem svcOne (str ("q")) (str (" hello ")) none true rSel9 rfl).1,
   (spec_c9_theorem svcOne (str ("q")) (str (" hello ")) none true rSel9 rfl).2.1,
   (spec_c9_theorem svcOne (str ("q")) (str (" hello ")) none true rSel9 rfl).2.2.1⟩

/-- Witness for C6 at concrete inputs (both an extractor call and the
pinned-passage path). -/
theorem spec_c6_witness :
    List.Forall₂ (fun ch cit => SnippetSpec ch.text cit.text) [rchunkA]
      (RAGAgent.extract_citations [rchunkA]) ∧
    ∃ ares, SelectedTextAgent.answer_with_selected_text svcOne reqSel.query
        (str (" hello ")) reqSel.book_id true = Except.ok ares ∧
      List.Forall₂ (fun t cit => SnippetSpec t cit.text)
        (str (" hello ") :: ares.additional_chunks.map (fun ch => ch.text))
        rSel.citations :=
  ⟨spec_c6_theorem.1 [rchunkA],
   spec_c6_theorem.2.2 svcOne reqSel (str (" hello ")) rSel rfl rfl⟩
